import Mathlib

/-!
Verification of the FeatBit documentation query assistant
(`skills/featbit/scripts/query.py`).

The Python module is embedded shallowly:

* Python dicts (which preserve insertion order) become association lists
  in declared order, looked up with `List.lookup`.
* The Python substring test `kw in s` becomes `containsSub` on lists of
  characters; `str.lower()` becomes a `Char.toLower` map (the inputs in
  question are ASCII).
* `list(set(xs))` in `get_all_pages` is modelled by `List.dedup`, which
  captures the set's membership and freedom from duplicates (Python leaves
  the iteration order of a set unspecified).
-/

/-- A result record of `find_pages`: the Python dict with keys url,
category and reason. -/
structure PageMatch where
  url : String
  category : String
  reason : String
deriving DecidableEq, Repr

namespace FeatBitDocFinder

/-- The "sdk" block of `PAGES` (SDK integration, GitHub repositories). -/
def sdkPages : List (String × String) :=
  [ ("overview", "https://docs.featbit.co/sdk/overview")
  , ("javascript", "https://github.com/featbit/featbit-js-client-sdk")
  , ("react", "https://github.com/featbit/featbit-react-client-sdk")
  , ("react-native", "https://github.com/featbit/featbit-react-native-sdk")
  , ("node", "https://github.com/featbit/featbit-node-server-sdk")
  , ("dotnet-server", "https://github.com/featbit/featbit-dotnet-sdk")
  , ("dotnet-client", "https://github.com/featbit/featbit-dotnet-client-sdk")
  , ("java", "https://github.com/featbit/featbit-java-sdk")
  , ("python", "https://github.com/featbit/featbit-python-sdk")
  , ("go", "https://github.com/featbit/featbit-go-sdk") ]

/-- The "deployment" block of `PAGES` (deployment installation). -/
def deploymentPages : List (String × String) :=
  [ ("overview", "https://docs.featbit.co/installation/deployment-options")
  , ("docker", "https://docs.featbit.co/installation/docker-compose")
  , ("kubernetes", "https://github.com/featbit/featbit-charts")
  , ("helm", "https://github.com/featbit/featbit-charts")
  , ("azure", "https://github.com/featbit/azure-container-apps")
  , ("aws", "https://docs.featbit.co/installation/terraform-aws")
  , ("terraform", "https://docs.featbit.co/installation/terraform-aws")
  , ("own-infra", "https://docs.featbit.co/installation/use-your-own-infrastructure") ]

/-- The "features" block of `PAGES` (feature management). -/
def featuresPages : List (String × String) :=
  [ ("overview", "https://docs.featbit.co/feature-flags/the-flag-list")
  , ("creating", "https://docs.featbit.co/getting-started/create-two-feature-flags")
  , ("targeting", "https://docs.featbit.co/feature-flags/targeting-users-with-flags/targeting-rules")
  , ("rollouts", "https://docs.featbit.co/feature-flags/targeting-users-with-flags/percentage-rollouts")
  , ("ab-testing", "https://docs.featbit.co/getting-started/how-to-guides/ab-testing")
  , ("variations", "https://docs.featbit.co/feature-flags/create-flag-variations") ]

/-- The "config" block of `PAGES` (configuration management). -/
def configPages : List (String × String) :=
  [ ("environment", "https://docs.featbit.co/feature-flags/organizing-flags/environments")
  , ("sdk-key", "https://docs.featbit.co/getting-started/connect-an-sdk")
  , ("webhook", "https://docs.featbit.co/integrations/webhooks")
  , ("segment", "https://docs.featbit.co/feature-flags/users-and-user-segments/user-segments") ]

/-- The "concepts" block of `PAGES`. -/
def conceptsPages : List (String × String) :=
  [ ("overview", "https://docs.featbit.co/")
  , ("getting-started", "https://docs.featbit.co/getting-started/connect-an-sdk") ]

/-- The documentation page mapping `FeatBitDocFinder.PAGES`, organized
by category, in the source's declared order. -/
def PAGES : List (String × List (String × String)) :=
  [ ("sdk", sdkPages)
  , ("deployment", deploymentPages)
  , ("features", featuresPages)
  , ("config", configPages)
  , ("concepts", conceptsPages) ]

/-- The keyword mapping `FeatBitDocFinder.KEYWORDS` in the source's
declared order (including the duplicated "integration" entry of the
source). -/
def KEYWORDS : List (String × List String) :=
  [ ("sdk", ["sdk", "client", "server", "integration", "integration", "initialize", "initialization"])
  , ("dotnet", ["dotnet", ".net", "c#", "csharp"])
  , ("javascript", ["javascript", "js", "typescript", "ts"])
  , ("react", ["react", "reactjs"])
  , ("node", ["node", "nodejs", "node.js"])
  , ("python", ["python", "py"])
  , ("go", ["go", "golang"])
  , ("java", ["java", "kotlin", "spring"])
  , ("deployment", ["deployment", "deploy", "install", "installation", "setup"])
  , ("docker", ["docker", "container"])
  , ("kubernetes", ["kubernetes", "k8s", "k8"])
  , ("helm", ["helm"])
  , ("azure", ["azure", "microsoft cloud"])
  , ("aws", ["aws", "amazon"])
  , ("feature", ["feature flag", "feature toggle", "toggle", "flag", "feature"])
  , ("targeting", ["targeting", "rule", "rules"])
  , ("rollout", ["rollout", "gradual", "publish"])
  , ("ab-test", ["ab test", "a/b", "experiment"])
  , ("config", ["configuration", "config", "setting", "settings"])
  , ("environment", ["environment", "env"])
  , ("sdk-key", ["sdk key", "secret", "key"])
  , ("webhook", ["webhook", "callback"]) ]

/-- Python substring containment `needle in hay` on character lists. -/
def containsSub : List Char → List Char → Bool
  | [], needle => needle.isEmpty
  | c :: t, needle => needle.isPrefixOf (c :: t) || containsSub t needle

/-- The lowercased question `question.lower()` as a list of characters
(ASCII lowering). -/
def lowerList (s : String) : List Char := s.toList.map Char.toLower

/-- The test `any(kw in question_lower for kw in cls.KEYWORDS[key])`. -/
def kwAny (ql : List Char) (key : String) : Bool :=
  ((List.lookup key KEYWORDS).getD []).any (fun kw => containsSub ql kw.toList)

/-- The platform subset of topic tags, as written in step 1 of
`find_pages`. -/
def platformKeys : List String :=
  ["dotnet", "javascript", "react", "node", "python", "go", "java"]

/-- Step 1 of `find_pages`: scan the keyword map in declared order; the
first key that both matches the question and lies in the platform subset
is taken, and the scan stops there. -/
def detectPlatform : List (String × List String) → List Char → Option String
  | [], _ => none
  | (key, kws) :: rest, ql =>
    if (kws.any fun kw => containsSub ql kw.toList) && platformKeys.contains key then
      some key
    else
      detectPlatform rest ql

/-- Step 2 of `find_pages`: the if/elif category chain, in source order. -/
def detectCategory (ql : List Char) : Option String :=
  if kwAny ql "deployment" then some "deployment"
  else if kwAny ql "feature" then some "features"
  else if kwAny ql "config" then some "config"
  else if kwAny ql "sdk" then some "sdk"
  else none

/-- The inner `else` of step 3: emit the category overview page when the
table has one, nothing otherwise. -/
def overviewResults (cat : String) (table : List (String × String)) : List PageMatch :=
  match List.lookup "overview" table with
  | some url => [⟨url, cat, "Matched category: " ++ cat⟩]
  | none => []

/-- Step 3 of `find_pages`: combine the detected platform and category
into the accumulated `results` list. -/
def categoryResults (platform : Option String) (category : Option String) : List PageMatch :=
  match category with
  | none => []
  | some cat =>
    match List.lookup cat PAGES with
    | none => []
    | some table =>
      match platform with
      | some p =>
        match List.lookup p table with
        | some url => [⟨url, cat, "Matched category: " ++ cat ++ ", platform: " ++ p⟩]
        | none => overviewResults cat table
      | none => overviewResults cat table

/-- The fallback record appended in step 4 of `find_pages`. -/
def fallbackMatch : PageMatch :=
  ⟨"https://docs.featbit.co/docs/getting-started", "concepts", "Default overview page"⟩

/-- The function `FeatBitDocFinder.find_pages`. -/
def find_pages (question : String) : List PageMatch :=
  let ql := lowerList question
  let results := categoryResults (detectPlatform KEYWORDS ql) (detectCategory ql)
  if results.isEmpty then [fallbackMatch] else results

/-- The function `FeatBitDocFinder.get_all_pages`: all URL values of
`PAGES`, with `list(set(...))` modelled as deduplication. -/
def get_all_pages : List String :=
  ((PAGES.map fun cp => cp.2.map Prod.snd).flatten).dedup

/-- The total number of subtopic entries across all categories of
`PAGES`. -/
def totalEntries : Nat := (PAGES.map fun cp => cp.2.length).sum

end FeatBitDocFinder

/-- An element of `page_contents` in `format_answer_prompt`: the Python
dict with keys url and content. -/
structure FetchedContent where
  url : String
  content : String
deriving DecidableEq, Repr

namespace FeatBitAnswer

/-- The leading f-string of `format_answer_prompt`. -/
def promptHeader (question : String) : String :=
  "Please answer the question based on the following FeatBit official documentation content.\n\nQuestion: "
    ++ question ++ "\n\nOfficial Documentation Content:\n\n"

/-- The three strings appended for entry `i` (1-indexed) of
`page_contents` in the loop of `format_answer_prompt`. -/
def docSection (i : Nat) (c : FetchedContent) : String :=
  "\n## Document " ++ toString i ++ ": " ++ c.url ++ "\n\n"
    ++ c.content ++ "\n\n" ++ "---\n"

/-- The trailing triple-quoted requirements block of
`format_answer_prompt`, with its five numbered items. -/
def answerRequirements : String :=
  "\nAnswer requirements:\n1. Answer in English (or match question language)\n2. Provide direct answer, do not repeat the question\n3. If code is involved, provide runnable code examples\n4. Must attach source links at the end of answer\n5. If no answer in docs, say \"information not found in official documentation\"\n"

/-- The function `FeatBitAnswer.format_answer_prompt`: the header, then
the `enumerate(page_contents, 1)` loop appending one section per entry,
then the requirements block. -/
def format_answer_prompt (question : String) (page_contents : List FetchedContent) : String :=
  ((List.enumFrom 1 page_contents).foldl
      (fun acc ic => acc ++ docSection ic.1 ic.2) (promptHeader question))
    ++ answerRequirements

/-- Specification-side description of the document section of the prompt:
the concatenation, in input order, of the per-document subsections,
1-indexed from `i`. -/
def docsConcat : Nat → List FetchedContent → String
  | _, [] => ""
  | i, c :: cs => docSection i c ++ docsConcat (i + 1) cs

end FeatBitAnswer

open FeatBitDocFinder FeatBitAnswer

/-- Step 3 accumulates at most one record: every branch of
`categoryResults` is `[]` or a singleton. -/
lemma overviewResults_cases (cat : String) (table : List (String × String)) :
    overviewResults cat table = [] ∨ ∃ m, overviewResults cat table = [m] := by
  have e : overviewResults cat table =
      (match List.lookup "overview" table with
       | some url => [⟨url, cat, "Matched category: " ++ cat⟩]
       | none => ([] : List PageMatch)) := rfl
  rw [e]
  cases List.lookup "overview" table with
  | none => exact Or.inl rfl
  | some u => exact Or.inr ⟨_, rfl⟩

/-- Unfolding `categoryResults` when both a category and a platform were
detected and the category is in the page table. -/
lemma categoryResults_some_some (cat p : String) (table : List (String × String))
    (ht : List.lookup cat PAGES = some table) :
    categoryResults (some p) (some cat) =
      match List.lookup p table with
      | some url => [⟨url, cat, "Matched category: " ++ cat ++ ", platform: " ++ p⟩]
      | none => overviewResults cat table := by
  have e : categoryResults (some p) (some cat) =
      (match List.lookup cat PAGES with
       | none => []
       | some table =>
         match List.lookup p table with
         | some url => [⟨url, cat, "Matched category: " ++ cat ++ ", platform: " ++ p⟩]
         | none => overviewResults cat table) := rfl
  rw [e, ht]

/-- Unfolding `categoryResults` when a category but no platform was
detected. -/
lemma categoryResults_none_some (cat : String) (table : List (String × String))
    (ht : List.lookup cat PAGES = some table) :
    categoryResults none (some cat) = overviewResults cat table := by
  have e : categoryResults none (some cat) =
      (match List.lookup cat PAGES with
       | none => []
       | some table => overviewResults cat table) := rfl
  rw [e, ht]

lemma categoryResults_table_none (pf : Option String) (cat : String)
    (ht : List.lookup cat PAGES = none) :
    categoryResults pf (some cat) = [] := by
  cases pf with
  | none =>
    have e : categoryResults none (some cat) =
        (match List.lookup cat PAGES with
         | none => ([] : List PageMatch)
         | some table => overviewResults cat table) := rfl
    rw [e, ht]
  | some p =>
    have e : categoryResults (some p) (some cat) =
        (match List.lookup cat PAGES with
         | none => ([] : List PageMatch)
         | some table =>
           match List.lookup p table with
           | some url => [⟨url, cat, "Matched category: " ++ cat ++ ", platform: " ++ p⟩]
           | none => overviewResults cat table) := rfl
    rw [e, ht]

lemma categoryResults_cases (pf c : Option String) :
    categoryResults pf c = [] ∨ ∃ m, categoryResults pf c = [m] := by
  cases c with
  | none => exact Or.inl rfl
  | some cat =>
    cases ht : List.lookup cat PAGES with
    | none => exact Or.inl (categoryResults_table_none pf cat ht)
    | some table =>
      cases pf with
      | none =>
        rw [categoryResults_none_some cat table ht]
        exact overviewResults_cases cat table
      | some p =>
        rw [categoryResults_some_some cat p table ht]
        cases List.lookup p table with
        | none => exact overviewResults_cases cat table
        | some url => exact Or.inr ⟨_, rfl⟩

/-- The platform scan only ever returns a key of the platform subset. -/
lemma detectPlatform_mem (l : List (String × List String)) (ql : List Char) (p : String)
    (h : detectPlatform l ql = some p) : platformKeys.contains p = true := by
  induction l with
  | nil => simp [detectPlatform] at h
  | cons kv rest ih =>
    obtain ⟨key, kws⟩ := kv
    by_cases hc : ((kws.any fun kw => containsSub ql kw.toList) && platformKeys.contains key) = true
    · rw [detectPlatform, if_pos hc] at h
      injection h with h2
      subst h2
      exact (Bool.and_eq_true _ _).mp hc |>.2
    · rw [detectPlatform, if_neg hc] at h
      exact ih h

/-- The category chain only ever returns one of the four category names. -/
lemma detectCategory_eq_some (ql : List Char) (cat : String)
    (h : detectCategory ql = some cat) :
    cat = "deployment" ∨ cat = "features" ∨ cat = "config" ∨ cat = "sdk" := by
  unfold detectCategory at h
  split at h
  · exact Or.inl (Option.some.inj h).symm
  · split at h
    · exact Or.inr (Or.inl (Option.some.inj h).symm)
    · split at h
      · exact Or.inr (Or.inr (Or.inl (Option.some.inj h).symm))
      · split at h
        · exact Or.inr (Or.inr (Or.inr (Option.some.inj h).symm))
        · exact absurd h (by simp)

/-- Step 4: when step 3 produced nothing, `find_pages` returns exactly
the fallback record. -/
lemma find_pages_of_results_nil (q : String)
    (h : categoryResults (detectPlatform KEYWORDS (lowerList q))
          (detectCategory (lowerList q)) = []) :
    find_pages q = [fallbackMatch] := by
  simp only [find_pages]
  rw [h]
  rfl

/-- A category whose table has neither an overview entry nor any
platform-keyed entry never produces a match in step 3. -/
lemma categoryResults_no_overview_no_platform (pf : Option String) (cat : String)
    (table : List (String × String))
    (ht : List.lookup cat PAGES = some table)
    (hov : List.lookup "overview" table = none)
    (hp : ∀ p ∈ platformKeys, List.lookup p table = none)
    (hpf : ∀ p, pf = some p → platformKeys.contains p = true) :
    categoryResults pf (some cat) = [] := by
  cases pf with
  | none =>
    rw [categoryResults_none_some cat table ht]
    unfold overviewResults
    rw [hov]
  | some p =>
    have hm : p ∈ platformKeys := by
      have := hpf p rfl
      simpa using this
    rw [categoryResults_some_some cat p table ht, hp p hm]
    unfold overviewResults
    rw [hov]

/-- When step 3 produced a singleton, step 4 keeps it unchanged. -/
lemma find_pages_of_results_single (q : String) (m : PageMatch)
    (h : categoryResults (detectPlatform KEYWORDS (lowerList q))
          (detectCategory (lowerList q)) = [m]) :
    find_pages q = [m] := by
  simp only [find_pages]
  rw [h]
  rfl

/-- When the category "deployment" was detected, step 3 always produces a
single match of category "deployment" (whatever the platform is): the
deployment table has an overview entry. -/
lemma categoryResults_deployment_single (pf : Option String) :
    ∃ m, categoryResults pf (some "deployment") = [m] ∧ m.category = "deployment" := by
  have ht : List.lookup "deployment" PAGES = some deploymentPages := by decide
  cases pf with
  | none =>
    rw [categoryResults_none_some "deployment" deploymentPages ht]
    exact ⟨_, rfl, rfl⟩
  | some p =>
    rw [categoryResults_some_some "deployment" p deploymentPages ht]
    cases List.lookup p deploymentPages with
    | none => exact ⟨_, rfl, rfl⟩
    | some url => exact ⟨_, rfl, rfl⟩

/-- C1: for every input string `q`, including the empty string,
`find_pages q` is a non-empty list of `PageMatch` records and never
fails; in this version its length is exactly 1 in every branch. -/
theorem find_pages_returns_exactly_one (q : String) :
    (find_pages q).length = 1 := by
  rcases categoryResults_cases (detectPlatform KEYWORDS (lowerList q))
      (detectCategory (lowerList q)) with h | ⟨m, h⟩
  · rw [find_pages_of_results_nil q h]
    rfl
  · rw [find_pages_of_results_single q m h]
    rfl

/-- C2: the category chain tests deployment, features, config, sdk in
this priority order, so a question containing both a deployment trigger
phrase and a feature trigger phrase is always detected as "deployment",
and every record `find_pages` returns for it carries category
"deployment". -/
theorem find_pages_deployment_priority (q : String)
    (hdep : kwAny (lowerList q) "deployment" = true)
    (hfeat : kwAny (lowerList q) "feature" = true) :
    detectCategory (lowerList q) = some "deployment" ∧
      ∀ m ∈ find_pages q, m.category = "deployment" := by
  have hc : detectCategory (lowerList q) = some "deployment" := by
    unfold detectCategory
    rw [if_pos hdep]
  refine ⟨hc, ?_⟩
  obtain ⟨m, hm, hcat⟩ :=
    categoryResults_deployment_single (detectPlatform KEYWORDS (lowerList q))
  rw [← hc] at hm
  rw [find_pages_of_results_single q m hm]
  intro x hx
  rw [List.mem_singleton] at hx
  subst hx
  exact hcat

/-- Witness for C2 at the spec's own example input. -/
theorem find_pages_deployment_priority_witness :
    kwAny (lowerList "how do I deploy a feature flag with docker") "deployment" = true ∧
    kwAny (lowerList "how do I deploy a feature flag with docker") "feature" = true ∧
    (detectCategory (lowerList "how do I deploy a feature flag with docker") = some "deployment" ∧
      ∀ m ∈ find_pages "how do I deploy a feature flag with docker",
        m.category = "deployment") :=
  ⟨by decide, by decide,
    find_pages_deployment_priority "how do I deploy a feature flag with docker"
      (by decide) (by decide)⟩

/-- C3: when a category and a platform are both detected and the
category's page table has a subtopic keyed by the platform name,
`find_pages` emits exactly one record with that URL and the reason
"Matched category: cat, platform: p". -/
theorem find_pages_platform_exact (q cat p url : String)
    (table : List (String × String))
    (hc : detectCategory (lowerList q) = some cat)
    (hp : detectPlatform KEYWORDS (lowerList q) = some p)
    (ht : List.lookup cat PAGES = some table)
    (hu : List.lookup p table = some url) :
    find_pages q =
      [⟨url, cat, "Matched category: " ++ cat ++ ", platform: " ++ p⟩] := by
  apply find_pages_of_results_single
  rw [hc, hp, categoryResults_some_some cat p table ht, hu]

/-- Witness for C3 at the spec's platform-exact example: the input
"how to use the go sdk" yields category "sdk", platform "go", and the
catalog's sdk/go entry. -/
theorem find_pages_platform_exact_witness :
    detectCategory (lowerList "how to use the go sdk") = some "sdk" ∧
    detectPlatform KEYWORDS (lowerList "how to use the go sdk") = some "go" ∧
    List.lookup "sdk" PAGES = some sdkPages ∧
    List.lookup "go" sdkPages = some "https://github.com/featbit/featbit-go-sdk" ∧
    find_pages "how to use the go sdk" =
      [⟨"https://github.com/featbit/featbit-go-sdk", "sdk",
        "Matched category: " ++ "sdk" ++ ", platform: " ++ "go"⟩] :=
  ⟨by decide, by decide, by decide, by decide,
    find_pages_platform_exact "how to use the go sdk" "sdk" "go"
      "https://github.com/featbit/featbit-go-sdk" sdkPages
      (by decide) (by decide) (by decide) (by decide)⟩

/-- The platform scan is the first-match scan of the keyword map
restricted to the platform subset. -/
lemma detectPlatform_eq_find (ql : List Char) :
    ∀ l : List (String × List String),
      detectPlatform l ql =
        ((l.filter fun kv => platformKeys.contains kv.1).find?
            (fun kv => kv.2.any fun kw => containsSub ql kw.toList)).map Prod.fst := by
  intro l
  induction l with
  | nil => rfl
  | cons kv rest ih =>
    obtain ⟨key, kws⟩ := kv
    by_cases hp : key ∈ platformKeys
    · by_cases hm : ∃ kw ∈ kws, containsSub ql kw.data = true
      · simp [detectPlatform, hp, hm]
      · simp [detectPlatform, hp, hm, ih]
    · simp [detectPlatform, hp, ih]

/-- C4: platform detection selects at most one tag from the subset
{dotnet, javascript, react, node, python, go, java}: the keyword map
restricted to that subset keeps the lexicon's declared order, and the
detected platform is the first entry of that restriction whose trigger
list matches the lowercased question — a first-match policy that stops at
the first hit, so a question matching several platform tags gets the
first one in lexicon order. -/
theorem detectPlatform_first_match_policy (q : String) :
    ((KEYWORDS.filter fun kv => platformKeys.contains kv.1).map Prod.fst
        = platformKeys) ∧
    detectPlatform KEYWORDS (lowerList q) =
      ((KEYWORDS.filter fun kv => platformKeys.contains kv.1).find?
          (fun kv => kv.2.any fun kw => containsSub (lowerList q) kw.toList)).map
        Prod.fst :=
  ⟨by decide, detectPlatform_eq_find (lowerList q) KEYWORDS⟩

/-- C5: when no category is detected, or the detected category's table
has neither an overview entry nor any platform-keyed subtopic, the result
is exactly the fallback record (fixed default getting-started URL,
category "concepts", reason "Default overview page"). -/
theorem find_pages_fallback_spec (q : String)
    (h : detectCategory (lowerList q) = none ∨
      ∃ cat table, detectCategory (lowerList q) = some cat ∧
        List.lookup cat PAGES = some table ∧
        List.lookup "overview" table = none ∧
        ∀ p ∈ platformKeys, List.lookup p table = none) :
    find_pages q = [fallbackMatch] := by
  apply find_pages_of_results_nil
  rcases h with h | ⟨cat, table, hc, ht, hov, hp⟩
  · rw [h]
    rfl
  · rw [hc]
    exact categoryResults_no_overview_no_platform _ cat table ht hov hp
      (fun p hpf => detectPlatform_mem KEYWORDS (lowerList q) p hpf)

/-- Witness for C5 at the empty-string input. -/
theorem find_pages_fallback_spec_witness :
    detectCategory (lowerList "") = none ∧
    find_pages "" = [fallbackMatch] ∧
    fallbackMatch = ⟨"https://docs.featbit.co/docs/getting-started", "concepts",
      "Default overview page"⟩ :=
  ⟨by decide, find_pages_fallback_spec "" (Or.inl (by decide)), rfl⟩

/-- C8: a question detected as category "config" always gets the fallback
record: the config table has neither an overview entry nor any
platform-keyed subtopic, so the category branch emits nothing. -/
theorem find_pages_config_falls_back (q : String)
    (h : detectCategory (lowerList q) = some "config") :
    find_pages q = [fallbackMatch] := by
  apply find_pages_of_results_nil
  rw [h]
  exact categoryResults_no_overview_no_platform _ "config" configPages
    (by decide) (by decide) (by decide)
    (fun p hpf => detectPlatform_mem KEYWORDS (lowerList q) p hpf)

/-- Witness for C8: "config" contains a config trigger phrase and no
deployment or feature trigger phrase. -/
theorem find_pages_config_falls_back_witness :
    detectCategory (lowerList "config") = some "config" ∧
    find_pages "config" = [fallbackMatch] :=
  ⟨by decide, find_pages_config_falls_back "config" (by decide)⟩

/-- The loop of `format_answer_prompt` appends exactly the concatenation
of the 1-indexed document subsections after the accumulator. -/
lemma foldl_docSection (cs : List FetchedContent) :
    ∀ (i : Nat) (acc : String),
      (List.enumFrom i cs).foldl (fun acc ic => acc ++ docSection ic.1 ic.2) acc
        = acc ++ docsConcat i cs := by
  induction cs with
  | nil =>
    intro i acc
    show acc = acc ++ ""
    exact (String.append_empty acc).symm
  | cons c cs ih =>
    intro i acc
    show (List.enumFrom (i + 1) cs).foldl (fun acc ic => acc ++ docSection ic.1 ic.2)
          (acc ++ docSection i c)
        = acc ++ (docSection i c ++ docsConcat (i + 1) cs)
    rw [ih (i + 1) (acc ++ docSection i c)]
    exact String.append_assoc _ _ _

/-- C6: `format_answer_prompt` is a pure function of its arguments whose
output is the question header, then one "Document i: url" subsection per
fetched content in input order (1-indexed, content text and separator
line included), then the fixed block of exactly five numbered answer
requirements; with no fetched contents the output is just the header
followed by the requirements block. -/
theorem format_answer_prompt_structure (q : String) (cs : List FetchedContent) :
    format_answer_prompt q cs
        = promptHeader q ++ (docsConcat 1 cs ++ answerRequirements) ∧
    format_answer_prompt q [] = promptHeader q ++ answerRequirements ∧
    answerRequirements =
      "\nAnswer requirements:\n"
        ++ "1. Answer in English (or match question language)\n"
        ++ "2. Provide direct answer, do not repeat the question\n"
        ++ "3. If code is involved, provide runnable code examples\n"
        ++ "4. Must attach source links at the end of answer\n"
        ++ "5. If no answer in docs, say \"information not found in official documentation\"\n" := by
  refine ⟨?_, ?_, ?_⟩
  · unfold format_answer_prompt
    rw [foldl_docSection cs 1 (promptHeader q)]
    exact String.append_assoc _ _ _
  · rfl
  · rfl

/-- C7: `get_all_pages` has no duplicate entries and is strictly shorter
than the total count of subtopic entries across all categories of the
page table (some URLs are shared between subtopics). -/
theorem get_all_pages_nodup_and_lt_total :
    get_all_pages.Nodup ∧ get_all_pages.length < totalEntries :=
  ⟨List.nodup_dedup _, by decide⟩

/-- C10: the fallback URL returned on the fallback path (for example on
the empty question) does not occur anywhere in the page catalog. -/
theorem fallback_url_not_in_catalog :
    find_pages "" = [fallbackMatch] ∧ fallbackMatch.url ∉ get_all_pages :=
  ⟨by decide, by decide⟩

/-- C9: no category table keys a subtopic by "dotnet" (the sdk table uses
"dotnet-server" and "dotnet-client"), so a question whose detected
platform is "dotnet" never takes the platform-exact branch: its result is
either a category overview record (reason without a platform part) or the
fallback record, and its URL is never one of the two .NET SDK repository
URLs. -/
theorem find_pages_dotnet_never_platform_exact (q : String)
    (h : detectPlatform KEYWORDS (lowerList q) = some "dotnet") :
    (∀ table ∈ PAGES.map Prod.snd, List.lookup "dotnet" table = none) ∧
    (∀ m ∈ find_pages q,
        m.url ≠ "https://github.com/featbit/featbit-dotnet-sdk" ∧
        m.url ≠ "https://github.com/featbit/featbit-dotnet-client-sdk") ∧
    (find_pages q = [fallbackMatch] ∨
      ∃ cat url, find_pages q = [⟨url, cat, "Matched category: " ++ cat⟩]) := by
  have key : find_pages q = [fallbackMatch] ∨
      ∃ cat url, find_pages q = [⟨url, cat, "Matched category: " ++ cat⟩] ∧
        (url = "https://docs.featbit.co/sdk/overview" ∨
         url = "https://docs.featbit.co/installation/deployment-options" ∨
         url = "https://docs.featbit.co/feature-flags/the-flag-list") := by
    cases hc : detectCategory (lowerList q) with
    | none =>
      left
      apply find_pages_of_results_nil
      rw [hc]
      rfl
    | some cat =>
      rcases detectCategory_eq_some _ _ hc with rfl | rfl | rfl | rfl
      · right
        refine ⟨"deployment", "https://docs.featbit.co/installation/deployment-options",
          ?_, Or.inr (Or.inl rfl)⟩
        apply find_pages_of_results_single
        rw [hc, h]
        decide
      · right
        refine ⟨"features", "https://docs.featbit.co/feature-flags/the-flag-list",
          ?_, Or.inr (Or.inr rfl)⟩
        apply find_pages_of_results_single
        rw [hc, h]
        decide
      · left
        apply find_pages_of_results_nil
        rw [hc, h]
        decide
      · right
        refine ⟨"sdk", "https://docs.featbit.co/sdk/overview", ?_, Or.inl rfl⟩
        apply find_pages_of_results_single
        rw [hc, h]
        decide
  refine ⟨by decide, ?_, ?_⟩
  · rcases key with hfp | ⟨cat, url, hfp, hurl⟩
    · rw [hfp]
      intro m hm
      rw [List.mem_singleton] at hm
      subst hm
      exact ⟨by decide, by decide⟩
    · rw [hfp]
      intro m hm
      rw [List.mem_singleton] at hm
      subst hm
      rcases hurl with rfl | rfl | rfl
      · exact ⟨show "https://docs.featbit.co/sdk/overview"
            ≠ "https://github.com/featbit/featbit-dotnet-sdk" by decide,
          show "https://docs.featbit.co/sdk/overview"
            ≠ "https://github.com/featbit/featbit-dotnet-client-sdk" by decide⟩
      · exact ⟨show "https://docs.featbit.co/installation/deployment-options"
            ≠ "https://github.com/featbit/featbit-dotnet-sdk" by decide,
          show "https://docs.featbit.co/installation/deployment-options"
            ≠ "https://github.com/featbit/featbit-dotnet-client-sdk" by decide⟩
      · exact ⟨show "https://docs.featbit.co/feature-flags/the-flag-list"
            ≠ "https://github.com/featbit/featbit-dotnet-sdk" by decide,
          show "https://docs.featbit.co/feature-flags/the-flag-list"
            ≠ "https://github.com/featbit/featbit-dotnet-client-sdk" by decide⟩
  · rcases key with hfp | ⟨cat, url, hfp, _⟩
    · exact Or.inl hfp
    · exact Or.inr ⟨cat, url, hfp⟩

/-- Witness for C9: "dotnet sdk" detects platform "dotnet" (the sdk tag
matches first but is not a platform tag, so the scan continues). -/
theorem find_pages_dotnet_never_platform_exact_witness :
    detectPlatform KEYWORDS (lowerList "dotnet sdk") = some "dotnet" ∧
    ((∀ table ∈ PAGES.map Prod.snd, List.lookup "dotnet" table = none) ∧
     (∀ m ∈ find_pages "dotnet sdk",
        m.url ≠ "https://github.com/featbit/featbit-dotnet-sdk" ∧
        m.url ≠ "https://github.com/featbit/featbit-dotnet-client-sdk") ∧
     (find_pages "dotnet sdk" = [fallbackMatch] ∨
       ∃ cat url, find_pages "dotnet sdk" = [⟨url, cat, "Matched category: " ++ cat⟩])) :=
  ⟨by decide, find_pages_dotnet_never_platform_exact "dotnet sdk" (by decide)⟩
